import Mathlib

/-!
Verification development for the whisp-gui transcription pipeline
(`whisp_gui.py`).  The Python source is shallowly embedded: paths are
strings, the filesystem is an explicit finite map from paths to
modification times, child processes are parameters that transform the
filesystem, and Tk logging is a list of events.
-/

set_option maxRecDepth 4000

/-- Whitespace characters stripped by Python `str.strip()` (and matched by
the regex class `\s`): space, tab, newline, vertical tab, form feed,
carriage return. -/
def isPySpace (c : Char) : Bool :=
  c == ' ' || c == '\t' || c == '\n' || c == '\r' ||
  c == Char.ofNat 11 || c == Char.ofNat 12

/-- Python `str.strip()` on a character list. -/
def pstripL (cs : List Char) : List Char :=
  ((cs.dropWhile isPySpace).reverse.dropWhile isPySpace).reverse

/-- Python `str.strip()`. -/
def pstrip (s : String) : String :=
  (pstripL s.toList).asString

/-- Split a character list on a separator character (used for the `/`
components of a POSIX path string). -/
def splitOnCharAux (sep : Char) : List Char → List Char → List (List Char)
  | [], acc => [acc.reverse]
  | c :: cs, acc =>
    if c == sep then acc.reverse :: splitOnCharAux sep cs []
    else splitOnCharAux sep cs (c :: acc)

def splitOnChar (sep : Char) (cs : List Char) : List (List Char) :=
  splitOnCharAux sep cs []

/-- The `/`-separated components of a path string. -/
def pathComps (p : String) : List String :=
  (splitOnChar '/' p.toList).map List.asString

/-- `Path(p) / f` for a relative final component `f` (pathlib joins with a
single separator). -/
def joinP (dir file : String) : String := dir ++ "/" ++ file

/-- `os.path.isabs` on POSIX: the path starts with `/`. -/
def isAbsPath (s : String) : Bool :=
  match s.toList with
  | [] => false
  | c :: _ => c == '/'

/-- `str.startswith` / `str.endswith` over the character lists. -/
def strStartsWith (s pre : String) : Bool :=
  pre.toList.isPrefixOf s.toList

def strEndsWith (s suf : String) : Bool :=
  suf.toList.isSuffixOf s.toList

/-- `Path(p).parent`: everything before the last `/`; `.` when there is no
separator (pathlib's parent of a bare file name). -/
def parentP (p : String) : String :=
  let comps := pathComps p
  if comps.length ≤ 1 then "." else String.intercalate "/" comps.dropLast

/-- `Path(p).name`: the final path component. -/
def fileName (p : String) : String :=
  (pathComps p).getLastD p

/-- `Path.stem` of a file NAME: pathlib drops the suffix starting at the
last dot when that dot is neither the first nor the last character. -/
def stemOf (n : String) : String :=
  let cs := n.toList
  match cs.reverse.findIdx? (fun c => c == '.') with
  | none => n
  | some k =>
    let i := cs.length - 1 - k
    if 0 < i ∧ i < cs.length - 1 then (cs.take i).asString else n

/-- All ancestor prefixes of a path string created by
`mkdir(parents=True)`: for `/out/clip` these are ``""``, `/out`,
`/out/clip`. -/
def prefixPaths (p : String) : List String :=
  let comps := pathComps p
  (List.range comps.length).map (fun i => String.intercalate "/" (comps.take (i + 1)))

/-- The filesystem: existing paths with their modification times (`find?`
takes the first entry, so prepending overwrites), plus the set of paths
whose creation fails (to model `mkdir` raising `OSError`). -/
structure FS where
  entries : List (String × Nat)
  blocked : List String
deriving DecidableEq

def FS.existsPath (fs : FS) (p : String) : Bool :=
  fs.entries.any (fun e => e.1 == p)

def FS.mtime (fs : FS) (p : String) : Nat :=
  match fs.entries.find? (fun e => e.1 == p) with
  | some e => e.2
  | none => 0

def FS.insert (fs : FS) (p : String) (t : Nat) : FS :=
  ⟨(p, t) :: fs.entries, fs.blocked⟩

def FS.remove (fs : FS) (p : String) : FS :=
  ⟨fs.entries.filter (fun e => e.1 != p), fs.blocked⟩

/-- `old.rename(new)`: the entry moves, keeping its modification time. -/
def FS.rename (fs : FS) (old new : String) : FS :=
  (fs.remove old).insert new (fs.mtime old)

/-- `Path(p).mkdir(parents=True, exist_ok=True)`: a no-op on an existing
path; otherwise fails (`none`) when a missing ancestor is blocked, else
creates the path and its missing ancestors. -/
def FS.mkdirp (fs : FS) (p : String) : Option FS :=
  if fs.existsPath p then some fs
  else if (prefixPaths p).any (fun q => !fs.existsPath q && fs.blocked.contains q) then none
  else some ⟨((prefixPaths p).filter (fun q => !fs.existsPath q)).map (fun q => (q, 0)) ++ fs.entries,
             fs.blocked⟩

/-- Log/side-effect events of one pipeline run.  `cmd args` records a
`run_cmd` call (the echoed shell-quoted `$ …` log line together with the
synchronous child-process invocation, lines 398-400). -/
inductive Ev where
  | info (msg : String)
  | err (msg : String)
  | cmd (args : List String)
deriving DecidableEq

def Ev.isCmd : Ev → Bool
  | .cmd _ => true
  | _ => false

def Ev.isErr : Ev → Bool
  | .err _ => true
  | _ => false

/-! ## Configuration store (lines 10-68, 78-94) -/

/-- Python `dict.get(k, dflt)` on an association list where the FIRST
matching entry wins (assignments prepend, so later assignments shadow
earlier ones). -/
def dictGet (d : List (String × String)) (k dflt : String) : String :=
  match d.find? (fun e => e.1 == k) with
  | some e => e.2
  | none => dflt

def dictContains (d : List (String × String)) (k : String) : Bool :=
  d.any (fun e => e.1 == k)

/-- `cfg = dict(DEFAULTS); cfg.update(upd)`: keys of `upd` win. -/
def dictUpdate (base upd : List (String × String)) : List (String × String) :=
  upd ++ base

/-- The built-in default table (lines 10-18); `home` is `Path.home()`. -/
def DEFAULTS (home : String) : List (String × String) :=
  [("WHISPER_BIN", home ++ "/whisper.cpp/build/bin/whisper-cli"),
   ("WHISPER_MODEL", home ++ "/whisper.cpp/models/ggml-large-v3.bin"),
   ("FFMPEG_BIN", "ffmpeg"),
   ("LANG", "ru"),
   ("OUTDIR", ""),
   ("KEEP_WAV", "0"),
   ("OVERWRITE", "0")]

/-- A character allowed in a config key by the regex class `[A-Z_]`. -/
def isKeyChar (c : Char) : Bool :=
  (decide ('A' ≤ c) && decide (c ≤ 'Z')) || c == '_'

/-- First occurrence of `q`: the characters before it and the rest after
it (used for the closing quote of `"([^"]*)"` / `'([^']*)'`). -/
def splitAtChar (q : Char) : List Char → Option (List Char × List Char)
  | [] => none
  | c :: cs =>
    if c == q then some ([], cs)
    else (splitAtChar q cs).map (fun r => (c :: r.1, r.2))

/-- One line of `load_shellish_kv_config` (lines 58-67): strip the line,
skip blanks and `#` comments, then match
`^([A-Z_]+)\s*=\s*(?:"([^"]*)"|'([^']*)'|(.*))\s*$`.  A quoted
alternative only matches when nothing but whitespace follows the closing
quote; otherwise the regex engine backtracks to the greedy `(.*)` group.
`expand` stands for `os.path.expanduser(os.path.expandvars(·))`, whose
result depends on the process environment. -/
def parseConfigLine (expand : String → String) (line : String) : Option (String × String) :=
  match pstripL line.toList with
  | [] => none
  | c :: cs =>
    if c == '#' then none
    else
      let key := (c :: cs).takeWhile isKeyChar
      if key.isEmpty then none
      else
        match ((c :: cs).dropWhile isKeyChar).dropWhile isPySpace with
        | [] => none
        | c2 :: r0 =>
          if c2 == '=' then
            let r := r0.dropWhile isPySpace
            let val : List Char :=
              match r with
              | [] => []
              | q :: tail =>
                if q == '"' ∨ q == Char.ofNat 39 then
                  match splitAtChar q tail with
                  | some (content, after) =>
                    if (after.dropWhile isPySpace).isEmpty then content else r
                  | none => r
                else r
            some (key.asString, expand (pstripL val).asString)
          else none

/-- `load_shellish_kv_config` over the lines of the file (lines 52-68);
a missing file is the empty line list.  Assignments prepend, so with
first-match lookup the last assignment to a key wins, as for a Python
dict. -/
def loadShellishKvConfig (expand : String → String) (lines : List String) : List (String × String) :=
  lines.foldl
    (fun cfg line =>
      match parseConfigLine expand line with
      | some kv => kv :: cfg
      | none => cfg)
    []

/-- `load_json_settings` (lines 37-44).  `file = none`: the settings file
does not exist; `some none`: it exists but reading/JSON-parsing raises
(the bare `except: pass`); `some (some d)`: it parses to record `d`.
The second component collects warnings printed while loading — the
source prints none on the load path. -/
def loadJsonSettings (file : Option (Option (List (String × String)))) :
    List (String × String) × List String :=
  match file with
  | none => ([], [])
  | some none => ([], [])
  | some (some d) => (d, [])

/-- `sget(key, default)` (lines 83-84):
`self.settings.get(key, cfg.get(key, default))`. -/
def sget (settings cfg : List (String × String)) (key dflt : String) : String :=
  dictGet settings key (dictGet cfg key dflt)

/-- The value `App.__init__` assigns to one configuration field (lines
78-94): `settings` is the persisted record, `shellish` the parsed
external config file, `skey` the settings key and `ckey` the
`DEFAULTS`/config-file key of the field; the passed default is
`cfg[ckey]` where `cfg = dict(DEFAULTS); cfg.update(shellish)`. -/
def appInitField (home : String) (settings shellish : List (String × String))
    (skey ckey : String) : String :=
  sget settings (dictUpdate (DEFAULTS home) shellish) skey
    (dictGet (dictUpdate (DEFAULTS home) shellish) ckey "")

/-- The (settings key, config-file key) pairs of the fields read through
`sget` with a `DEFAULTS`-backed default (lines 86-94). -/
def fieldTable : List (String × String) :=
  [("whisper_bin", "WHISPER_BIN"),
   ("model_path", "WHISPER_MODEL"),
   ("ffmpeg_bin", "FFMPEG_BIN"),
   ("lang", "LANG"),
   ("outdir", "OUTDIR"),
   ("KEEP_WAV", "KEEP_WAV"),
   ("OVERWRITE", "OVERWRITE")]

/-! ## Parameter list (lines 439-446) -/

/-- One row of the custom-parameter tree; `enabled` models the `on == "✓"`
check on the stored tick mark. -/
structure Param where
  enabled : Bool
  name : String
  value : String
deriving DecidableEq

/-- The custom-parameter loop of `run_pipeline` (lines 440-446): enabled
rows with a non-empty stripped name contribute `[name, value]` (stripped)
when the stripped value is non-empty and `[name]` otherwise. -/
def toCommandArgs (ps : List Param) : List String :=
  (ps.map (fun p =>
    if p.enabled && pstrip p.name != "" then
      if pstrip p.value != "" then [pstrip p.name, pstrip p.value]
      else [pstrip p.name]
    else [])).flatten

/-- The `toCommandArgs` contract exactly as the specification words it:
enabled entries with non-empty value give `[name, value]`, enabled
entries with empty value give `[name]`, disabled entries give nothing
(no stripping, no empty-name filtering). -/
def specToCommandArgs (ps : List Param) : List String :=
  (ps.map (fun p =>
    if p.enabled then
      if p.value != "" then [p.name, p.value] else [p.name]
    else [])).flatten

/-! ## Helpers (lines 533-564) -/

/-- The candidate directory name `f"{name} ({i})"`. -/
def altName (name : String) (i : Nat) : String :=
  name ++ " (" ++ toString i ++ ")"

def altPath (base name : String) (i : Nat) : String :=
  joinP base (altName name i)

/-- The `while True` search of `unique_dir` (lines 538-543), made total
with fuel; when the fuel runs out the current candidate is returned.
`uniqueDir` supplies fuel `fs.entries.length + 1`, enough for the loop to
reach the first free index in any reachable filesystem. -/
def uniqueDirAux (fs : FS) (base name : String) : Nat → Nat → String
  | 0, i => altPath base name i
  | fuel + 1, i =>
    if fs.existsPath (altPath base name i) then uniqueDirAux fs base name fuel (i + 1)
    else altPath base name i

/-- `unique_dir(base, name)` (lines 533-543): `base/name` when free,
otherwise the first of `base/"name (2)"`, `base/"name (3)"`, … that does
not exist. -/
def uniqueDir (fs : FS) (base name : String) : String :=
  if fs.existsPath (joinP base name) then uniqueDirAux fs base name (fs.entries.length + 1) 2
  else joinP base name

/-- `newest_existing(paths)` (lines 545-549): drop non-existing paths and
take the maximum by modification time (Python `max` keeps the first
maximal element). -/
def newestExisting (fs : FS) (paths : List String) : Option String :=
  match paths.filter (fun p => fs.existsPath p) with
  | [] => none
  | q :: qs => some (qs.foldl (fun best p => if fs.mtime p > fs.mtime best then p else best) q)

/-- `shutil_which(cmd)` (lines 551-564), POSIX branch (`os.name != "nt"`;
the Windows loop over `.exe/.cmd/.bat` extensions is not modelled):
an absolute executable command resolves to itself, otherwise the `PATH`
directories are searched in order.  `isExec` models `os.access(·, X_OK)`;
`pathDirs` models `os.environ["PATH"].split(os.pathsep)`.  As in pathlib,
joining with an absolute command replaces the base. -/
def shutilWhich (fs : FS) (isExec : String → Bool) (pathDirs : List String)
    (cmd : String) : Option String :=
  if isAbsPath cmd && isExec cmd then some cmd
  else
    pathDirs.findSome? fun base =>
      let cand := if isAbsPath cmd then cmd else joinP base cmd
      if fs.existsPath cand && isExec cand then some cand else none

/-! ## Per-file pipeline (lines 466-522) -/

/-- `base_dir = Path(outdir) if outdir else p.parent` (line 473);
the empty string is the falsy "no output directory configured". -/
def baseDirOf (outdir inpath : String) : String :=
  if outdir == "" then parentP inpath else outdir

def stemOfInput (inpath : String) : String :=
  stemOf (fileName inpath)

/-- `artifacts_dir / f"{stem}.16k.mono.wav"` (line 490). -/
def wavPath (adir stem : String) : String :=
  joinP adir (stem ++ ".16k.mono.wav")

/-- `artifacts_dir / f"{stem}.txt"` (line 491). -/
def txtPath (adir stem : String) : String :=
  joinP adir (stem ++ ".txt")

/-- Artifacts-directory resolution (lines 472-486): with the per-file
subfolder enabled, `base_dir/stem`, rerouted through `unique_dir` on an
existing directory when overwrite is off, then `mkdir`; otherwise
`base_dir` itself is created.  `none` models the `mkdir` call raising. -/
def resolveArtifacts (perFileSubdir overwrite : Bool) (baseDir stem : String)
    (fs : FS) : Option (String × FS) :=
  if perFileSubdir then
    if overwrite then
      (fs.mkdirp (joinP baseDir stem)).map (fun fs2 => (joinP baseDir stem, fs2))
    else
      let adir :=
        if fs.existsPath (joinP baseDir stem) then uniqueDir fs baseDir stem
        else joinP baseDir stem
      (fs.mkdirp adir).map (fun fs2 => (adir, fs2))
  else
    (fs.mkdirp baseDir).map (fun fs2 => (baseDir, fs2))

/-- The glob `artifacts_dir.glob(f"{stem}*.txt")` (line 511): existing
entries directly inside `adir` whose name starts with `stem` and ends
with `.txt`. -/
def globStemTxt (fs : FS) (adir stem : String) : List String :=
  (fs.entries.map (fun e => e.1)).filter (fun p =>
    parentP p == adir &&
    (strStartsWith (fileName p) stem && strEndsWith (fileName p) ".txt" &&
     decide (stem.length + 4 ≤ (fileName p).length)))

/-- Result of `process_one`: the filesystem, the log events, and the
message of the exception propagating to the per-file `except` block of
`run_pipeline` (if any). -/
structure POut where
  fs : FS
  evs : List Ev
  exn : Option String
deriving DecidableEq

/-- `App.process_one` (lines 466-522).  `run fs args` is the synchronous
child process of `run_cmd` (lines 398-400): `none` models a non-zero
exit (`subprocess.run(args, check=True)` raising `CalledProcessError`),
`some fs2` an exit-0 run leaving filesystem `fs2`. -/
def processOne (run : FS → List String → Option FS)
    (perFileSubdir keepWav overwrite : Bool)
    (ffmpegBin : String) (baseWhisper : List String) (outdir : String)
    (inpath : String) (fs : FS) : POut :=
  if !fs.existsPath inpath then
    ⟨fs, [Ev.err ("Not a file: " ++ inpath)], none⟩
  else
    let baseDir := baseDirOf outdir inpath
    let stem := stemOfInput inpath
    match resolveArtifacts perFileSubdir overwrite baseDir stem fs with
    | none => ⟨fs, [], some "mkdir failed"⟩
    | some (adir, fs1) =>
      let wav := wavPath adir stem
      let txt := txtPath adir stem
      let e0 := [Ev.info ("Artifacts dir: " ++ adir)]
      let ex : FS × List Ev × Option String :=
        if fs1.existsPath wav && !overwrite then
          (fs1, e0 ++ [Ev.info ("Skip extract (exists): " ++ wav)], none)
        else
          let args := [ffmpegBin, "-y", "-i", inpath, "-vn", "-ac", "1", "-ar", "16000", wav]
          match run fs1 args with
          | none => (fs1, e0 ++ [Ev.info ("Extracting → " ++ wav), Ev.cmd args], some "command failed")
          | some fs2 => (fs2, e0 ++ [Ev.info ("Extracting → " ++ wav), Ev.cmd args], none)
      match ex with
      | (fs2, evs1, some m) => ⟨fs2, evs1, some m⟩
      | (fs2, evs1, none) =>
        let tr : FS × List Ev × Option String :=
          if fs2.existsPath txt && !overwrite then
            (fs2, evs1 ++ [Ev.info ("Skip transcribe (exists): " ++ txt)], none)
          else
            let args := baseWhisper ++ ["-f", wav]
            let e1 := evs1 ++ [Ev.info ("Transcribing with: " ++ fileName (baseWhisper.headD "") ++ " …"), Ev.cmd args]
            match run fs2 args with
            | none => (fs2, e1, some "command failed")
            | some fs3 =>
              let fs4 :=
                if !fs3.existsPath txt then
                  match newestExisting fs3 (globStemTxt fs3 adir stem ++ [wav ++ ".txt"]) with
                  | some newest => if newest == txt then fs3 else fs3.rename newest txt
                  | none => fs3
                else fs3
              (fs4, e1, none)
        match tr with
        | (fs5, evs2, some m) => ⟨fs5, evs2, some m⟩
        | (fs5, evs2, none) =>
          let fs6 := if !keepWav && fs5.existsPath wav then fs5.remove wav else fs5
          if fs6.existsPath txt then
            ⟨fs6, evs2 ++ [Ev.info ("✅ " ++ txt)], none⟩
          else
            ⟨fs6, evs2 ++ [Ev.err ("Could not locate .txt for: " ++ inpath)], none⟩

/-! ## Run pipeline (lines 370-464) -/

/-- `lang = self.lang.get().strip() or "ru"` (line 407): empty and
whitespace-only language codes fall back to `"ru"`. -/
def effLang (s : String) : String :=
  if pstrip s == "" then "ru" else pstrip s

/-- The per-run base argument list of the transcription engine
(lines 422-449). -/
def buildBaseWhisper (whisperBin modelPath lang : String)
    (outputTxt outputSrt outputVtt : Bool)
    (threads ctxFlag ctxSize : String)
    (params : List Param) (extra : List String) : List String :=
  [whisperBin, "-m", modelPath, "-l", lang]
  ++ (if outputTxt then ["--output-txt", "true"] else [])
  ++ (if outputSrt then ["--output-srt", "true"] else [])
  ++ (if outputVtt then ["--output-vtt", "true"] else [])
  ++ (if pstrip threads == "" then [] else ["-t", pstrip threads])
  ++ (if pstrip ctxSize == "" then []
      else [(if pstrip ctxFlag == "" then "--max-context" else pstrip ctxFlag), pstrip ctxSize])
  ++ toCommandArgs params
  ++ extra

/-- The UI state snapshot `run_pipeline` reads (lines 402-411 and the
variables of `App.__init__`). -/
structure RunInput where
  whisperBin : String
  modelPath : String
  ffmpegBin : String
  lang : String
  outdir : String
  extraStr : String
  keepWav : Bool
  overwrite : Bool
  perFileSubdir : Bool
  outputTxt : Bool
  outputSrt : Bool
  outputVtt : Bool
  threads : String
  ctxFlag : String
  ctxSize : String
  params : List Param
  files : List String
deriving DecidableEq

/-- `App.run_pipeline` (lines 402-464).  `shlexSplit` models
`shlex.split` on the free-text extra arguments.  Validation failures
raise `FileNotFoundError`/`OSError`, caught at line 459 and logged as a
single error event; per-file exceptions are caught at lines 454-455 and
logged with the offending path, after which the loop continues. -/
def runPipeline (run : FS → List String → Option FS)
    (isExec : String → Bool) (pathDirs : List String)
    (shlexSplit : String → List String)
    (inp : RunInput) (fs : FS) : FS × List Ev :=
  let wb := pstrip inp.whisperBin
  let mp := pstrip inp.modelPath
  let fb := pstrip inp.ffmpegBin
  let lang := effLang inp.lang
  let od := pstrip inp.outdir
  let extra := if pstrip inp.extraStr == "" then [] else shlexSplit (pstrip inp.extraStr)
  if !fs.existsPath wb then (fs, [Ev.err ("whisper-cli not found: " ++ wb)])
  else if !fs.existsPath mp then (fs, [Ev.err ("Model not found: " ++ mp)])
  else if (shutilWhich fs isExec pathDirs fb).isNone then
    (fs, [Ev.err ("ffmpeg not in PATH: " ++ fb)])
  else
    match (if od == "" then some fs else fs.mkdirp od) with
    | none => (fs, [Ev.err "mkdir failed"])
    | some fs1 =>
      let base := buildBaseWhisper wb mp lang inp.outputTxt inp.outputSrt inp.outputVtt
        inp.threads inp.ctxFlag inp.ctxSize inp.params extra
      let res := inp.files.foldl
        (fun (acc : FS × List Ev) f =>
          let r := processOne run inp.perFileSubdir inp.keepWav inp.overwrite fb base od f acc.1
          match r.exn with
          | some m => (r.fs, acc.2 ++ r.evs ++ [Ev.err (f ++ ": " ++ m)])
          | none => (r.fs, acc.2 ++ r.evs))
        (fs1, [])
      (res.1, res.2 ++ [Ev.info "Done."])

/-! ## Worker guard (lines 370-380) -/

/-- The interactive-thread state `start_worker` touches.  `workerAlive`
models `self.worker and self.worker.is_alive()`. -/
structure AppState where
  workerAlive : Bool
  files : List String
  status : String
  goBtnEnabled : Bool
  logq : List String
deriving DecidableEq

/-- `App.start_worker` (lines 370-380): returns the new state and whether
a new worker thread was started.  An alive worker makes the request
return immediately; an empty file list only pops a warning dialog. -/
def startWorker (s : AppState) : AppState × Bool :=
  if s.workerAlive then (s, false)
  else if s.files.isEmpty then (s, false)
  else
    ({ s with
        status := "Working…"
        goBtnEnabled := false
        logq := s.logq ++ ["Starting…\n"]
        workerAlive := true }, true)

/-! ## Shared lemmas about the filesystem model -/

theorem existsPath_remove_self (fs : FS) (p : String) :
    (fs.remove p).existsPath p = false := by
  simp only [FS.remove, FS.existsPath]
  refine List.any_eq_false.mpr ?_
  intro e he hp
  have h1 := List.of_mem_filter he
  exact (bne_iff_ne.mp h1) (beq_iff_eq.mp hp)

theorem existsPath_remove_other (fs : FS) (p q : String) (h : q ≠ p) :
    (fs.remove p).existsPath q = fs.existsPath q := by
  simp only [FS.remove, FS.existsPath]
  induction fs.entries with
  | nil => rfl
  | cons e t ih =>
    by_cases he : e.1 = p
    · have h1 : (e.1 != p) = false := by simp [he]
      have h2 : (e.1 == q) = false := by
        refine beq_eq_false_iff_ne.mpr ?_
        rw [he]; exact fun hq => h hq.symm
      simp [List.filter_cons, h1, h2, ih]
    · have h1 : (e.1 != p) = true := bne_iff_ne.mpr he
      simp [List.filter_cons, h1, List.any_cons, ih]

theorem existsPath_remove_of_false (fs : FS) (p q : String) (h : fs.existsPath q = false) :
    (fs.remove p).existsPath q = false := by
  by_cases hqp : q = p
  · subst hqp; exact existsPath_remove_self fs q
  · rw [existsPath_remove_other fs p q hqp]; exact h

theorem existsPath_insert_self (fs : FS) (p : String) (t : Nat) :
    (fs.insert p t).existsPath p = true := by
  simp [FS.insert, FS.existsPath, List.any]

theorem existsPath_rename_new (fs : FS) (old new : String) :
    (fs.rename old new).existsPath new = true := by
  simp [FS.rename, existsPath_insert_self]

theorem existsPath_rename_old (fs : FS) (old new : String) (h : old ≠ new) :
    (fs.rename old new).existsPath old = false := by
  have h1 : (old == new) = false := beq_eq_false_iff_ne.mpr h
  have h2 := existsPath_remove_self fs old
  simp only [FS.rename, FS.insert, FS.existsPath, List.any_cons] at *
  simp [h1, h2]
  exact fun hn => h hn.symm

theorem foldl_choice_mem (f : String → String → String)
    (hf : ∀ b p, f b p = p ∨ f b p = b) :
    ∀ (qs : List String) (q : String), qs.foldl f q ∈ q :: qs := by
  intro qs
  induction qs with
  | nil => intro q; simp
  | cons p t ih =>
    intro q
    have := ih (f q p)
    rcases hf q p with h | h <;> rw [h] at this <;>
      simp only [List.foldl] <;> rw [h] <;>
      rcases List.mem_cons.mp this with h2 | h2 <;> simp [h2]

theorem newestExisting_exists (fs : FS) (l : List String) (c : String)
    (h : newestExisting fs l = some c) : fs.existsPath c = true := by
  unfold newestExisting at h
  rcases hf : l.filter (fun p => fs.existsPath p) with _ | ⟨q, qs⟩ <;> rw [hf] at h
  · exact absurd h (by simp)
  · have hc : c ∈ q :: qs := by
      have := foldl_choice_mem (fun best p => if fs.mtime p > fs.mtime best then p else best)
        (fun b p => by by_cases hbp : fs.mtime p > fs.mtime b <;> simp [hbp]) qs q
      have hcq : c = qs.foldl (fun best p => if fs.mtime p > fs.mtime best then p else best) q := by
        simpa using h.symm
      rw [hcq]; exact this
    have : c ∈ l.filter (fun p => fs.existsPath p) := hf ▸ hc
    exact List.of_mem_filter this

theorem string_length_append (a b : String) : (a ++ b).length = a.length + b.length := by
  cases a; cases b; simp [String.length, String.instAppend, String.append]

theorem txtPath_ne_wavPath (adir stem : String) : txtPath adir stem ≠ wavPath adir stem := by
  intro h
  have hl := congrArg String.length h
  simp only [txtPath, wavPath, joinP, string_length_append] at hl
  have h4 : (".txt" : String).length = 4 := rfl
  have h13 : (".16k.mono.wav" : String).length = 13 := rfl
  rw [h4, h13] at hl
  omega

/-! ## Claim theorems -/

/-- Claim C10: when the input path does not exist, `process_one` logs the
per-file error `Not a file: …` and returns normally — no exception, no
child-process invocation, and no change to the filesystem (no directory
or file created). -/
theorem missing_input_no_side_effects (run : FS → List String → Option FS)
    (perFileSubdir keepWav overwrite : Bool) (ffmpegBin : String)
    (baseWhisper : List String) (outdir inpath : String) (fs : FS)
    (h : fs.existsPath inpath = false) :
    processOne run perFileSubdir keepWav overwrite ffmpegBin baseWhisper outdir inpath fs =
      ⟨fs, [Ev.err ("Not a file: " ++ inpath)], none⟩ := by
  simp [processOne, h]

theorem missing_input_no_side_effects_witness :
    FS.existsPath ⟨[], []⟩ "/in/clip.mp4" = false ∧
    processOne (fun fs _ => some fs) true false false "ffmpeg" [] "" "/in/clip.mp4" ⟨[], []⟩ =
      ⟨⟨[], []⟩, [Ev.err ("Not a file: " ++ "/in/clip.mp4")], none⟩ :=
  ⟨by decide,
   missing_input_no_side_effects (fun fs _ => some fs) true false false "ffmpeg" [] ""
     "/in/clip.mp4" ⟨[], []⟩ (by decide)⟩

/-- Claim C8: a run request while the worker is alive is a no-op:
`start_worker` returns before touching any state, starting no thread and
queueing nothing. -/
theorem start_worker_noop_when_alive (s : AppState) (h : s.workerAlive = true) :
    startWorker s = (s, false) := by
  simp [startWorker, h]

theorem start_worker_noop_when_alive_witness :
    AppState.workerAlive ⟨true, ["/in/a.mp4"], "Working…", false, []⟩ = true ∧
    startWorker ⟨true, ["/in/a.mp4"], "Working…", false, []⟩ =
      (⟨true, ["/in/a.mp4"], "Working…", false, []⟩, false) :=
  ⟨by decide,
   start_worker_noop_when_alive ⟨true, ["/in/a.mp4"], "Working…", false, []⟩ (by decide)⟩

/-- Claim C9: when the configured language code strips to the empty
string, `run_pipeline` uses `"ru"` — the base engine argument list starts
`[engine, -m, model, -l, ru]`, so every engine invocation carries
`-l ru` rather than omitting the flag (and no validation check inspects
the language). -/
theorem lang_fallback_ru (l : String) (h : pstrip l = "") :
    effLang l = "ru" ∧
    ∀ (wb mp : String) (ot os ov : Bool) (th cf cs : String)
      (ps : List Param) (ex : List String),
      (buildBaseWhisper wb mp (effLang l) ot os ov th cf cs ps ex).take 5 =
        [wb, "-m", mp, "-l", "ru"] := by
  have he : effLang l = "ru" := by simp [effLang, h]
  refine ⟨he, ?_⟩
  intro wb mp ot os ov th cf cs ps ex
  rw [he]
  simp [buildBaseWhisper, List.take]

theorem lang_fallback_ru_witness :
    pstrip "  " = "" ∧
    (buildBaseWhisper "/wb" "/mod" (effLang "  ") true false false "" "" "" [] []).take 5 =
      ["/wb", "-m", "/mod", "-l", "ru"] :=
  ⟨by decide, (lang_fallback_ru "  " (by decide)).2 "/wb" "/mod" true false false "" "" "" [] []⟩

/-- Claim C7, counterexample to the claim as stated: on malformed
persisted-settings storage (`some none`: the file exists but reading or
JSON-parsing raises) the `except Exception: pass` of
`load_json_settings` swallows the error silently — the list of warnings
emitted during loading is empty, so no warning is logged. -/
theorem malformed_settings_no_warning : (loadJsonSettings (some none)).2 = [] := rfl

/-- Claim C7, amended: malformed persisted-settings storage is treated as
the empty record without a warning; loading returns normally (no crash),
and every `sget` lookup against the empty record falls through to the
lower-precedence merged config value. -/
theorem malformed_settings_amended :
    loadJsonSettings (some none) = ([], []) ∧
    ∀ (cfg : List (String × String)) (key dflt : String),
      sget (loadJsonSettings (some none)).1 cfg key dflt = dictGet cfg key dflt :=
  ⟨rfl, fun _ _ _ => rfl⟩

/-- Claim C4, counterexample to the claim as stated: the code strips
parameter values before testing emptiness and before emitting them, so
an enabled entry with the whitespace value `" "` yields the single token
`["--x"]` where the specified rule (non-empty value ⇒ `[name, value]`)
yields `["--x", " "]`. -/
theorem to_command_args_counterexample :
    toCommandArgs [⟨true, "--x", " "⟩] = ["--x"] ∧
    specToCommandArgs [⟨true, "--x", " "⟩] = ["--x", " "] ∧
    toCommandArgs [⟨true, "--x", " "⟩] ≠ specToCommandArgs [⟨true, "--x", " "⟩] := by
  refine ⟨rfl, rfl, ?_⟩
  decide

/-- Claim C4, amended: the emitted tokens are the stripped name and
value, and an enabled entry whose stripped name is empty contributes
nothing; on lists whose enabled entries carry already-stripped non-empty
names and already-stripped values the produced sequence is exactly the
specified one, and the specification's example list yields exactly
`["--temperature", "0.2", "--flag"]`. -/
theorem to_command_args_amended :
    (∀ ps : List Param,
      (∀ p ∈ ps, p.enabled = true →
        pstrip p.name = p.name ∧ pstrip p.value = p.value ∧ p.name ≠ "") →
      toCommandArgs ps = specToCommandArgs ps) ∧
    toCommandArgs [⟨true, "--temperature", "0.2"⟩, ⟨false, "--no-speech-thold", "0.5"⟩,
      ⟨true, "--flag", ""⟩] = ["--temperature", "0.2", "--flag"] := by
  constructor
  · intro ps h
    induction ps with
    | nil => rfl
    | cons p t ih =>
      have ht := ih (fun q hq => h q (List.mem_cons_of_mem p hq))
      simp only [toCommandArgs, specToCommandArgs, List.map_cons, List.flatten_cons] at *
      rw [ht]
      cases he : p.enabled with
      | false => simp
      | true =>
        obtain ⟨hn, hv, hne⟩ := h p (List.mem_cons_self p t) he
        rw [hv, hn]
        have hbn : (p.name != "") = true := bne_iff_ne.mpr hne
        simp [hbn]
  · decide

theorem to_command_args_amended_witness :
    (∀ p ∈ ([⟨true, "--temperature", "0.2"⟩, ⟨false, "--no-speech-thold", "0.5"⟩,
        ⟨true, "--flag", ""⟩] : List Param), p.enabled = true →
      pstrip p.name = p.name ∧ pstrip p.value = p.value ∧ p.name ≠ "") ∧
    toCommandArgs [⟨true, "--temperature", "0.2"⟩, ⟨false, "--no-speech-thold", "0.5"⟩,
      ⟨true, "--flag", ""⟩] =
      specToCommandArgs [⟨true, "--temperature", "0.2"⟩, ⟨false, "--no-speech-thold", "0.5"⟩,
        ⟨true, "--flag", ""⟩] :=
  ⟨by decide,
   to_command_args_amended.1 [⟨true, "--temperature", "0.2"⟩,
     ⟨false, "--no-speech-thold", "0.5"⟩, ⟨true, "--flag", ""⟩] (by decide)⟩

/-- The loop body of `unique_dir` reaches the first free index: starting
the scan at index `j`, if index `i ≥ j` is free and every index in
`[j, i)` is taken, then with at least `i - j` units of fuel the scan
returns the candidate for `i` (when the fuel runs out exactly at `i` the
fallback returns that same candidate). -/
theorem uniqueDirAux_spec (fs : FS) (base name : String) :
    ∀ (fuel i j : Nat), 2 ≤ j → j ≤ i → i - j ≤ fuel →
      fs.existsPath (altPath base name i) = false →
      (∀ k, j ≤ k → k < i → fs.existsPath (altPath base name k) = true) →
      uniqueDirAux fs base name fuel j = altPath base name i := by
  intro fuel
  induction fuel with
  | zero =>
    intro i j _ hji hfuel _ _
    have hij : i = j := Nat.le_antisymm (by omega) hji
    rw [hij]
    rfl
  | succ n ih =>
    intro i j h2 hji hfuel hf hall
    by_cases hij : j = i
    · subst hij
      simp [uniqueDirAux, hf]
    · have hlt : j < i := Nat.lt_of_le_of_ne hji hij
      have hj : fs.existsPath (altPath base name j) = true := hall j (Nat.le_refl j) hlt
      simp only [uniqueDirAux, hj, if_true]
      exact ih i (j + 1) (Nat.le_succ_of_le h2) hlt (by omega) hf
        (fun k hk1 hk2 => hall k (Nat.le_of_succ_le hk1) hk2)

/-- Claim C3: `unique_dir(base, name)` returns `base/name` when that path
does not exist; when it exists, it returns the candidate of the first
index `i ≥ 2` (counting up from 2) whose `base/"name (i)"` does not
exist — stated for any first free index within the fuel bound
`entries.length + 3`, which every filesystem satisfies since the `i - 2`
taken candidates are distinct existing paths.  In particular
`base/clip` when absent, `base/"clip (2)"` when only `base/clip` exists,
and `base/"clip (3)"` when both exist. -/
theorem unique_dir_spec :
    (∀ (fs : FS) (base name : String),
      fs.existsPath (joinP base name) = false → uniqueDir fs base name = joinP base name) ∧
    (∀ (fs : FS) (base name : String) (i : Nat),
      fs.existsPath (joinP base name) = true → 2 ≤ i → i ≤ fs.entries.length + 3 →
      fs.existsPath (altPath base name i) = false →
      (∀ j, 2 ≤ j → j < i → fs.existsPath (altPath base name j) = true) →
      uniqueDir fs base name = altPath base name i) ∧
    (uniqueDir ⟨[], []⟩ "base" "clip" = joinP "base" "clip" ∧
     uniqueDir ⟨[("base/clip", 0)], []⟩ "base" "clip" = joinP "base" "clip (2)" ∧
     uniqueDir ⟨[("base/clip", 0), ("base/clip (2)", 0)], []⟩ "base" "clip" =
       joinP "base" "clip (3)") := by
  refine ⟨?_, ?_, by decide, by decide, by decide⟩
  · intro fs base name h
    simp [uniqueDir, h]
  · intro fs base name i h1 h2 h3 h4 h5
    simp only [uniqueDir, h1, if_true]
    exact uniqueDirAux_spec fs base name (fs.entries.length + 1) i 2 (Nat.le_refl 2) h2
      (by omega) h4 h5

theorem unique_dir_spec_witness :
    FS.existsPath ⟨[("base/clip", 0), ("base/clip (2)", 0)], []⟩ (joinP "base" "clip") = true ∧
    uniqueDir ⟨[("base/clip", 0), ("base/clip (2)", 0)], []⟩ "base" "clip" =
      altPath "base" "clip" 3 :=
  ⟨by decide,
   unique_dir_spec.2.1 ⟨[("base/clip", 0), ("base/clip (2)", 0)], []⟩ "base" "clip" 3
     (by decide) (by decide) (by decide) (by decide)
     (fun j hj1 hj2 => by
       have hj : j = 2 := by omega
       subst hj
       decide)⟩

/-- Claim C2, counterexample to the claim as stated: with the
per-file-subfolder option enabled, overwrite disabled, and the previous
run's artifacts (`/out/clip`, `/out/clip/clip.16k.mono.wav`,
`/out/clip/clip.txt`) present, re-running `process_one` on
`/in/clip.mp4` does NOT skip the tools: `unique_dir` reroutes the
artifacts directory to the fresh `/out/clip (2)`, where neither target
exists, so the transcoder is invoked again (a `cmd` event occurs). -/
theorem rerun_with_subdir_invokes_tools :
    (processOne (fun fs _ => some fs) true false false "ffmpeg" ["/wb", "-m", "/mod", "-l", "ru"]
      "/out" "/in/clip.mp4"
      ⟨[("/in/clip.mp4", 0), ("/out", 0), ("/out/clip", 0),
        ("/out/clip/clip.16k.mono.wav", 1), ("/out/clip/clip.txt", 2)], []⟩).evs.any
      (fun e => e.isCmd) = true := by
  decide

/-- Claim C2, amended: with the per-file-subfolder option disabled (so
the artifacts directory is the output base itself), re-running
`process_one` with overwrite disabled and both the target audio and the
target transcript present invokes neither the transcoder nor the
transcription engine, emits no error, and still reports success
(`✅ …` for that file).  With the option enabled the claim fails: a
fresh `stem (2)` directory is chosen and both steps run again. -/
theorem rerun_skips_when_no_subdir (run : FS → List String → Option FS)
    (keepWav : Bool) (ffmpegBin : String) (baseWhisper : List String)
    (outdir inpath : String) (fs : FS)
    (h1 : fs.existsPath inpath = true)
    (h2 : fs.existsPath (baseDirOf outdir inpath) = true)
    (h3 : fs.existsPath (wavPath (baseDirOf outdir inpath) (stemOfInput inpath)) = true)
    (h4 : fs.existsPath (txtPath (baseDirOf outdir inpath) (stemOfInput inpath)) = true) :
    (processOne run false keepWav false ffmpegBin baseWhisper outdir inpath fs).exn = none ∧
    (processOne run false keepWav false ffmpegBin baseWhisper outdir inpath fs).evs.all
      (fun e => !e.isCmd && !e.isErr) = true ∧
    Ev.info ("✅ " ++ txtPath (baseDirOf outdir inpath) (stemOfInput inpath)) ∈
      (processOne run false keepWav false ffmpegBin baseWhisper outdir inpath fs).evs := by
  have h5 : (fs.remove (wavPath (baseDirOf outdir inpath) (stemOfInput inpath))).existsPath
      (txtPath (baseDirOf outdir inpath) (stemOfInput inpath)) = true := by
    rw [existsPath_remove_other _ _ _ (txtPath_ne_wavPath _ _)]
    exact h4
  cases keepWav with
  | false =>
    simp [processOne, resolveArtifacts, FS.mkdirp, h1, h2, h3, h4, h5, Ev.isCmd, Ev.isErr]
  | true =>
    simp [processOne, resolveArtifacts, FS.mkdirp, h1, h2, h3, h4, Ev.isCmd, Ev.isErr]

theorem rerun_skips_when_no_subdir_witness :
    FS.existsPath ⟨[("/in/clip.mp4", 0), ("/out", 0), ("/out/clip.16k.mono.wav", 1),
        ("/out/clip.txt", 2)], []⟩ "/in/clip.mp4" = true ∧
    Ev.info ("✅ " ++ txtPath (baseDirOf "/out" "/in/clip.mp4") (stemOfInput "/in/clip.mp4")) ∈
      (processOne (fun fs _ => some fs) false false false "ffmpeg" ["/wb"] "/out" "/in/clip.mp4"
        ⟨[("/in/clip.mp4", 0), ("/out", 0), ("/out/clip.16k.mono.wav", 1),
          ("/out/clip.txt", 2)], []⟩).evs :=
  ⟨by decide,
   (rerun_skips_when_no_subdir (fun fs _ => some fs) false "ffmpeg" ["/wb"] "/out" "/in/clip.mp4"
     ⟨[("/in/clip.mp4", 0), ("/out", 0), ("/out/clip.16k.mono.wav", 1), ("/out/clip.txt", 2)], []⟩
     (by decide) (by decide) (by decide) (by decide)).2.2⟩

/-- Claim C6: when any pre-run validation fails — the engine binary path
does not exist, the model path does not exist, the transcoder does not
resolve to an executable, or a configured (non-empty) output directory
cannot be created — `run_pipeline` aborts before invoking any child
process for any file (no `cmd` event), leaves the filesystem untouched,
and surfaces the failure as a user-visible error event. -/
theorem validation_aborts_run (run : FS → List String → Option FS)
    (isExec : String → Bool) (pathDirs : List String) (shlexSplit : String → List String)
    (inp : RunInput) (fs : FS)
    (h : fs.existsPath (pstrip inp.whisperBin) = false ∨
         fs.existsPath (pstrip inp.modelPath) = false ∨
         shutilWhich fs isExec pathDirs (pstrip inp.ffmpegBin) = none ∨
         (pstrip inp.outdir ≠ "" ∧ fs.mkdirp (pstrip inp.outdir) = none)) :
    (runPipeline run isExec pathDirs shlexSplit inp fs).1 = fs ∧
    (runPipeline run isExec pathDirs shlexSplit inp fs).2.all (fun e => !e.isCmd) = true ∧
    ∃ m, Ev.err m ∈ (runPipeline run isExec pathDirs shlexSplit inp fs).2 := by
  cases hwb : fs.existsPath (pstrip inp.whisperBin) with
  | false => simp [runPipeline, hwb, Ev.isCmd]
  | true =>
    cases hmp : fs.existsPath (pstrip inp.modelPath) with
    | false => simp [runPipeline, hwb, hmp, Ev.isCmd]
    | true =>
      cases hwh : shutilWhich fs isExec pathDirs (pstrip inp.ffmpegBin) with
      | none => simp [runPipeline, hwb, hmp, hwh, Ev.isCmd]
      | some w =>
        cases hod : pstrip inp.outdir == "" with
        | true =>
          rcases h with h | h | h | ⟨hne, _⟩
          · rw [hwb] at h; simp at h
          · rw [hmp] at h; simp at h
          · rw [hwh] at h; simp at h
          · exact absurd (eq_of_beq hod) hne
        | false =>
          cases hmk : fs.mkdirp (pstrip inp.outdir) with
          | none => simp [runPipeline, hwb, hmp, hwh, hod, hmk, Ev.isCmd]
          | some fs1 =>
            rcases h with h | h | h | ⟨_, hnone⟩
            · rw [hwb] at h; simp at h
            · rw [hmp] at h; simp at h
            · rw [hwh] at h; simp at h
            · rw [hmk] at hnone; simp at hnone

theorem validation_aborts_run_witness :
    FS.existsPath ⟨[], []⟩ (pstrip "/wb") = false ∧
    (runPipeline (fun fs _ => some fs) (fun _ => false) [] (fun _ => [])
      ⟨"/wb", "/mod", "ffmpeg", "ru", "", "", false, false, false, true, false, false,
       "", "", "", [], ["/in/a.mp4"]⟩ ⟨[], []⟩).2.all (fun e => !e.isCmd) = true :=
  ⟨by decide,
   (validation_aborts_run (fun fs _ => some fs) (fun _ => false) [] (fun _ => [])
     ⟨"/wb", "/mod", "ffmpeg", "ru", "", "", false, false, false, true, false, false,
      "", "", "", [], ["/in/a.mp4"]⟩ ⟨[], []⟩ (Or.inl (by decide))).2.1⟩

/-- Concrete two-file scenario for the per-file-error continuation: the
engine writes the transcript only for the second file. -/
def c5Run : FS → List String → Option FS := fun fs args =>
  if args.contains "-i" then some (fs.insert (args.getLastD "") 1)
  else if args.getLastD "" == "/out/b.16k.mono.wav" then some (fs.insert "/out/b.txt" 2)
  else some fs

def c5Fs : FS :=
  ⟨[("/wb", 0), ("/mod", 0), ("/bin/ffmpeg", 0), ("/in/a.mp4", 0), ("/in/b.mp4", 0),
    ("/out", 0)], []⟩

def c5Inp : RunInput :=
  ⟨"/wb", "/mod", "ffmpeg", "", "/out", "", false, false, false, true, false, false,
   "", "", "", [], ["/in/a.mp4", "/in/b.mp4"]⟩

/-- Claim C5: after the engine runs without producing the exact target
transcript, `process_one` searches the artifacts directory for
`stem*.txt` plus the audio path with `.txt` appended; when the newest
existing candidate is found it is renamed to the target transcript
(afterwards the target exists and the candidate is gone) and the file is
reported a success; when no candidate exists a per-file error
`Could not locate .txt for: …` is logged without raising.  The closing
conjunct shows the loop continuing: in a concrete two-file run the first
file fails reconciliation yet the second is still processed to
success. -/
theorem transcript_reconciliation :
    (∀ (run : FS → List String → Option FS) (pf kw ow : Bool) (fb : String)
       (base : List String) (od inpath : String) (fs : FS) (adir : String) (fs1 fs2 fs3 : FS),
      fs.existsPath inpath = true →
      resolveArtifacts pf ow (baseDirOf od inpath) (stemOfInput inpath) fs = some (adir, fs1) →
      fs1.existsPath (wavPath adir (stemOfInput inpath)) = false →
      run fs1 [fb, "-y", "-i", inpath, "-vn", "-ac", "1", "-ar", "16000",
        wavPath adir (stemOfInput inpath)] = some fs2 →
      fs2.existsPath (txtPath adir (stemOfInput inpath)) = false →
      run fs2 (base ++ ["-f", wavPath adir (stemOfInput inpath)]) = some fs3 →
      fs3.existsPath (txtPath adir (stemOfInput inpath)) = false →
      (∀ c, newestExisting fs3 (globStemTxt fs3 adir (stemOfInput inpath) ++
          [wavPath adir (stemOfInput inpath) ++ ".txt"]) = some c →
        (processOne run pf kw ow fb base od inpath fs).exn = none ∧
        (processOne run pf kw ow fb base od inpath fs).fs.existsPath
          (txtPath adir (stemOfInput inpath)) = true ∧
        (processOne run pf kw ow fb base od inpath fs).fs.existsPath c = false ∧
        Ev.info ("✅ " ++ txtPath adir (stemOfInput inpath)) ∈
          (processOne run pf kw ow fb base od inpath fs).evs) ∧
      (newestExisting fs3 (globStemTxt fs3 adir (stemOfInput inpath) ++
          [wavPath adir (stemOfInput inpath) ++ ".txt"]) = none →
        (processOne run pf kw ow fb base od inpath fs).exn = none ∧
        Ev.err ("Could not locate .txt for: " ++ inpath) ∈
          (processOne run pf kw ow fb base od inpath fs).evs)) ∧
    (Ev.err ("Could not locate .txt for: " ++ "/in/a.mp4") ∈
       (runPipeline c5Run (fun s => s == "/bin/ffmpeg") ["/bin"] (fun _ => []) c5Inp c5Fs).2 ∧
     Ev.info ("✅ " ++ "/out/b.txt") ∈
       (runPipeline c5Run (fun s => s == "/bin/ffmpeg") ["/bin"] (fun _ => []) c5Inp c5Fs).2) := by
  constructor
  · intro run pf kw ow fb base od inpath fs adir fs1 fs2 fs3 h1 hres hwav hrun1 htxt2 hrun2 hmiss
    constructor
    · intro c hnew
      have hc3 : fs3.existsPath c = true := newestExisting_exists fs3 _ c hnew
      have hcne : c ≠ txtPath adir (stemOfInput inpath) := by
        intro hce
        rw [hce, hmiss] at hc3
        exact absurd hc3 (by simp)
      have hcbeq : (c == txtPath adir (stemOfInput inpath)) = false :=
        beq_eq_false_iff_ne.mpr hcne
      have htxt4 : (fs3.rename c (txtPath adir (stemOfInput inpath))).existsPath
          (txtPath adir (stemOfInput inpath)) = true := existsPath_rename_new fs3 _ _
      have hc4 : (fs3.rename c (txtPath adir (stemOfInput inpath))).existsPath c = false :=
        existsPath_rename_old fs3 c _ hcne
      have h6t : ((fs3.rename c (txtPath adir (stemOfInput inpath))).remove
          (wavPath adir (stemOfInput inpath))).existsPath
          (txtPath adir (stemOfInput inpath)) = true := by
        rw [existsPath_remove_other _ _ _ (txtPath_ne_wavPath adir (stemOfInput inpath))]
        exact htxt4
      have h6c : ((fs3.rename c (txtPath adir (stemOfInput inpath))).remove
          (wavPath adir (stemOfInput inpath))).existsPath c = false :=
        existsPath_remove_of_false _ _ _ hc4
      by_cases hcl : (!kw && (fs3.rename c (txtPath adir (stemOfInput inpath))).existsPath
          (wavPath adir (stemOfInput inpath))) = true
      · refine ⟨?_, ?_, ?_, ?_⟩ <;>
          simp [processOne, h1, hres, hwav, hrun1, htxt2, hrun2, hmiss, hnew, hcbeq, hcl,
            h6t, h6c]
      · have hcl2 : (!kw && (fs3.rename c (txtPath adir (stemOfInput inpath))).existsPath
            (wavPath adir (stemOfInput inpath))) = false := by
          revert hcl; cases (!kw && (fs3.rename c (txtPath adir (stemOfInput inpath))).existsPath
            (wavPath adir (stemOfInput inpath))) <;> simp
        refine ⟨?_, ?_, ?_, ?_⟩ <;>
          simp [processOne, h1, hres, hwav, hrun1, htxt2, hrun2, hmiss, hnew, hcbeq, hcl2,
            htxt4, hc4]
    · intro hnew
      have h7 : ((fs3.remove (wavPath adir (stemOfInput inpath))).existsPath
          (txtPath adir (stemOfInput inpath))) = false := by
        rw [existsPath_remove_other _ _ _ (txtPath_ne_wavPath adir (stemOfInput inpath))]
        exact hmiss
      by_cases hcl : (!kw && fs3.existsPath (wavPath adir (stemOfInput inpath))) = true
      · refine ⟨?_, ?_⟩ <;>
          simp [processOne, h1, hres, hwav, hrun1, htxt2, hrun2, hmiss, hnew, hcl, h7]
      · have hcl2 : (!kw && fs3.existsPath (wavPath adir (stemOfInput inpath))) = false := by
          revert hcl; cases (!kw && fs3.existsPath (wavPath adir (stemOfInput inpath))) <;> simp
        refine ⟨?_, ?_⟩ <;>
          simp [processOne, h1, hres, hwav, hrun1, htxt2, hrun2, hmiss, hnew, hcl2, h7]
  · constructor <;> decide

/-- Concrete reconciliation scenario: the engine deposits
`clip.16k.mono.wav.txt` instead of `clip.txt`. -/
def c5wRun : FS → List String → Option FS := fun fs args =>
  if args.contains "-i" then some (fs.insert (args.getLastD "") 1)
  else some (fs.insert "/out/clip.16k.mono.wav.txt" 5)

def c5wFs : FS := ⟨[("/in/clip.mp4", 0), ("/out", 0)], []⟩

def c5wFs2 : FS := c5wFs.insert "/out/clip.16k.mono.wav" 1

def c5wFs3 : FS := c5wFs2.insert "/out/clip.16k.mono.wav.txt" 5

theorem transcript_reconciliation_witness :
    newestExisting c5wFs3 (globStemTxt c5wFs3 "/out" (stemOfInput "/in/clip.mp4") ++
      [wavPath "/out" (stemOfInput "/in/clip.mp4") ++ ".txt"]) =
      some "/out/clip.16k.mono.wav.txt" ∧
    (processOne c5wRun false false false "ffmpeg" ["/wb", "-m", "/mod", "-l", "ru"] "/out"
      "/in/clip.mp4" c5wFs).fs.existsPath (txtPath "/out" (stemOfInput "/in/clip.mp4")) = true ∧
    Ev.info ("✅ " ++ txtPath "/out" (stemOfInput "/in/clip.mp4")) ∈
      (processOne c5wRun false false false "ffmpeg" ["/wb", "-m", "/mod", "-l", "ru"] "/out"
        "/in/clip.mp4" c5wFs).evs :=
  ⟨by decide,
   ((transcript_reconciliation.1 c5wRun false false false "ffmpeg"
      ["/wb", "-m", "/mod", "-l", "ru"] "/out" "/in/clip.mp4" c5wFs "/out" c5wFs c5wFs2 c5wFs3
      (by decide) (by decide) (by decide) (by decide) (by decide) (by decide) (by decide)).1
      "/out/clip.16k.mono.wav.txt" (by decide)).2.1,
   ((transcript_reconciliation.1 c5wRun false false false "ffmpeg"
      ["/wb", "-m", "/mod", "-l", "ru"] "/out" "/in/clip.mp4" c5wFs "/out" c5wFs c5wFs2 c5wFs3
      (by decide) (by decide) (by decide) (by decide) (by decide) (by decide) (by decide)).1
      "/out/clip.16k.mono.wav.txt" (by decide)).2.2.2⟩

/-! ## Lemmas for the configuration merge (claim C1) -/

theorem find?_eq_none_of_not_contains (d : List (String × String)) (k : String)
    (h : dictContains d k = false) : d.find? (fun x => x.1 == k) = none := by
  unfold dictContains at h
  refine List.find?_eq_none.mpr ?_
  intro a ha hp
  have hT : d.any (fun x => x.1 == k) = true := List.any_eq_true.mpr ⟨a, ha, hp⟩
  rw [hT] at h
  exact absurd h (by simp)

theorem find?_isSome_of_contains (d : List (String × String)) (k : String)
    (h : dictContains d k = true) : ∃ e, d.find? (fun x => x.1 == k) = some e := by
  unfold dictContains at h
  rcases List.any_eq_true.mp h with ⟨x, hx, hp⟩
  rcases hf : d.find? (fun x => x.1 == k) with _ | e
  · exact absurd hp (List.find?_eq_none.mp hf x hx)
  · exact ⟨e, hf⟩

theorem dictGet_of_contains (d : List (String × String)) (k a b : String)
    (h : dictContains d k = true) : dictGet d k a = dictGet d k b := by
  obtain ⟨e, he⟩ := find?_isSome_of_contains d k h
  simp [dictGet, he]

theorem dictGet_of_not_contains (d : List (String × String)) (k dflt : String)
    (h : dictContains d k = false) : dictGet d k dflt = dflt := by
  simp [dictGet, find?_eq_none_of_not_contains d k h]

theorem dictGet_append_left (d1 d2 : List (String × String)) (k a : String)
    (h : dictContains d1 k = true) : dictGet (d1 ++ d2) k a = dictGet d1 k a := by
  obtain ⟨e, he⟩ := find?_isSome_of_contains d1 k h
  simp [dictGet, List.find?_append, he, Option.or]

theorem dictGet_append_right (d1 d2 : List (String × String)) (k a : String)
    (h : dictContains d1 k = false) : dictGet (d1 ++ d2) k a = dictGet d2 k a := by
  simp [dictGet, List.find?_append, find?_eq_none_of_not_contains d1 k h, Option.or]

theorem dictGet_self_default (d : List (String × String)) (k x : String) :
    dictGet d k (dictGet d k x) = dictGet d k x := by
  rcases hf : d.find? (fun e => e.1 == k) with _ | e <;> simp [dictGet, hf]

theorem dictContains_append (d1 d2 : List (String × String)) (k : String) :
    dictContains (d1 ++ d2) k = (dictContains d1 k || dictContains d2 k) := by
  simp [dictContains, List.any_append]

/-- The key produced by a successful config-line parse is a non-empty run
of `[A-Z_]` characters. -/
theorem parseConfigLine_key (expand : String → String) (line : String) (k v : String)
    (h : parseConfigLine expand line = some (k, v)) :
    k.toList ≠ [] ∧ ∀ c ∈ k.toList, isKeyChar c = true := by
  unfold parseConfigLine at h
  rcases hl : pstripL line.toList with _ | ⟨c0, rest⟩ <;> rw [hl] at h
  · simp at h
  · by_cases hc : (c0 == '#') = true
    · simp [hc] at h
    · simp only [hc, Bool.false_eq_true, if_false] at h
      by_cases hk : ((c0 :: rest).takeWhile isKeyChar).isEmpty = true
      · simp [hk] at h
      · simp only [hk, Bool.false_eq_true, if_false] at h
        rcases hr : (((c0 :: rest).dropWhile isKeyChar).dropWhile isPySpace) with _ | ⟨c2, r0⟩ <;>
          rw [hr] at h
        · simp at h
        · by_cases he : (c2 == '=') = true
          · simp only [he, if_true, Option.some.injEq, Prod.mk.injEq] at h
            obtain ⟨hk1, _⟩ := h
            subst hk1
            constructor
            · intro hnil
              have : ((c0 :: rest).takeWhile isKeyChar) = [] := by
                have : (((c0 :: rest).takeWhile isKeyChar).asString).toList =
                    (c0 :: rest).takeWhile isKeyChar := rfl
                rw [← this, hnil]
              rw [this] at hk
              exact hk rfl
            · intro c hcmem
              exact List.mem_takeWhile_imp hcmem
          · simp [he] at h

/-- Every key stored by `load_shellish_kv_config` is a non-empty run of
`[A-Z_]` characters (the regex key group). -/
theorem shellish_key_chars (expand : String → String) (lines : List String) :
    ∀ e ∈ loadShellishKvConfig expand lines,
      e.1.toList ≠ [] ∧ ∀ c ∈ e.1.toList, isKeyChar c = true := by
  unfold loadShellishKvConfig
  suffices hgen : ∀ (init : List (String × String)),
      (∀ e ∈ init, e.1.toList ≠ [] ∧ ∀ c ∈ e.1.toList, isKeyChar c = true) →
      ∀ e ∈ lines.foldl
        (fun cfg line =>
          match parseConfigLine expand line with
          | some kv => kv :: cfg
          | none => cfg) init,
        e.1.toList ≠ [] ∧ ∀ c ∈ e.1.toList, isKeyChar c = true by
    exact hgen [] (by simp)
  induction lines with
  | nil => intro init hinv e he; exact hinv e (by simpa using he)
  | cons line rest ih =>
    intro init hinv e he
    simp only [List.foldl_cons] at he
    refine ih _ ?_ e he
    intro e2 he2
    rcases hp : parseConfigLine expand line with _ | ⟨kk, vv⟩ <;> rw [hp] at he2
    · exact hinv e2 he2
    · rcases List.mem_cons.mp he2 with rfl | h2
      · exact parseConfigLine_key expand line kk vv hp
      · exact hinv e2 h2

/-- A key with a character outside `[A-Z_]` (e.g. any lowercase settings
key) never occurs in the parsed external config. -/
theorem shellish_not_contains (expand : String → String) (lines : List String) (skey : String)
    (hbad : ∃ c ∈ skey.toList, isKeyChar c = false) :
    dictContains (loadShellishKvConfig expand lines) skey = false := by
  cases hc : dictContains (loadShellishKvConfig expand lines) skey
  · rfl
  · exfalso
    rcases List.any_eq_true.mp hc with ⟨e, he, hp⟩
    have hkeys := (shellish_key_chars expand lines e he).2
    have heq : e.1 = skey := eq_of_beq hp
    rcases hbad with ⟨c, hcmem, hcbad⟩
    have hgood : isKeyChar c = true := hkeys c (by rw [heq]; exact hcmem)
    rw [hcbad] at hgood
    exact absurd hgood (by simp)

/-- The keys of `DEFAULTS` do not depend on `home`. -/
theorem dictContains_DEFAULTS (home k : String) :
    dictContains (DEFAULTS home) k =
      ("WHISPER_BIN" == k || ("WHISPER_MODEL" == k || ("FFMPEG_BIN" == k || ("LANG" == k ||
       ("OUTDIR" == k || ("KEEP_WAV" == k || ("OVERWRITE" == k || false))))))) := rfl

/-- Core precedence fact: when the settings key equals the config key, or
occurs in neither `DEFAULTS` nor the parsed external config, the
`sget`-style lookup collapses to the three-layer precedence. -/
theorem appInitField_cases (home : String) (settings shellish : List (String × String))
    (skey ckey : String)
    (hkey : skey = ckey ∨
      (dictContains (DEFAULTS home) skey = false ∧ dictContains shellish skey = false)) :
    (dictContains settings skey = true →
      appInitField home settings shellish skey ckey = dictGet settings skey "") ∧
    (dictContains settings skey = false → dictContains shellish ckey = true →
      appInitField home settings shellish skey ckey = dictGet shellish ckey "") ∧
    (dictContains settings skey = false → dictContains shellish ckey = false →
      appInitField home settings shellish skey ckey = dictGet (DEFAULTS home) ckey "") := by
  have hX : dictGet (shellish ++ DEFAULTS home) skey
      (dictGet (shellish ++ DEFAULTS home) ckey "") =
      dictGet (shellish ++ DEFAULTS home) ckey "" := by
    rcases hkey with rfl | ⟨hd, hs⟩
    · exact dictGet_self_default _ _ _
    · have hcfg : dictContains (shellish ++ DEFAULTS home) skey = false := by
        rw [dictContains_append, hs, hd]
        rfl
      exact dictGet_of_not_contains _ _ _ hcfg
  refine ⟨?_, ?_, ?_⟩
  · intro hc
    exact dictGet_of_contains settings skey _ _ hc
  · intro hnc hcc
    simp only [appInitField, sget, dictUpdate]
    rw [dictGet_of_not_contains settings skey _ hnc, hX]
    exact dictGet_append_left shellish (DEFAULTS home) ckey "" hcc
  · intro hnc hcc
    simp only [appInitField, sget, dictUpdate]
    rw [dictGet_of_not_contains settings skey _ hnc, hX]
    exact dictGet_append_right shellish (DEFAULTS home) ckey "" hcc

/-- Claim C1: for every configuration field drawn through `sget`
(settings key `skey`, external-config/defaults key `ckey`), the value
`App.__init__` uses follows the precedence persisted settings record >
external key=value config file > built-in default: a field present in
the settings record wins; otherwise a key present in the parsed external
file wins; otherwise the `DEFAULTS` entry is used. -/
theorem config_precedence (home : String) (settings : List (String × String))
    (expand : String → String) (lines : List String) (skey ckey : String)
    (hmem : (skey, ckey) ∈ fieldTable) :
    (dictContains settings skey = true →
      appInitField home settings (loadShellishKvConfig expand lines) skey ckey =
        dictGet settings skey "") ∧
    (dictContains settings skey = false →
      dictContains (loadShellishKvConfig expand lines) ckey = true →
      appInitField home settings (loadShellishKvConfig expand lines) skey ckey =
        dictGet (loadShellishKvConfig expand lines) ckey "") ∧
    (dictContains settings skey = false →
      dictContains (loadShellishKvConfig expand lines) ckey = false →
      appInitField home settings (loadShellishKvConfig expand lines) skey ckey =
        dictGet (DEFAULTS home) ckey "") := by
  simp only [fieldTable, List.mem_cons, List.not_mem_nil, or_false, Prod.mk.injEq] at hmem
  rcases hmem with ⟨rfl, rfl⟩ | ⟨rfl, rfl⟩ | ⟨rfl, rfl⟩ | ⟨rfl, rfl⟩ | ⟨rfl, rfl⟩ |
    ⟨rfl, rfl⟩ | ⟨rfl, rfl⟩
  · exact appInitField_cases _ _ _ _ _ (Or.inr ⟨by rw [dictContains_DEFAULTS]; decide,
      shellish_not_contains expand lines _ (by decide)⟩)
  · exact appInitField_cases _ _ _ _ _ (Or.inr ⟨by rw [dictContains_DEFAULTS]; decide,
      shellish_not_contains expand lines _ (by decide)⟩)
  · exact appInitField_cases _ _ _ _ _ (Or.inr ⟨by rw [dictContains_DEFAULTS]; decide,
      shellish_not_contains expand lines _ (by decide)⟩)
  · exact appInitField_cases _ _ _ _ _ (Or.inr ⟨by rw [dictContains_DEFAULTS]; decide,
      shellish_not_contains expand lines _ (by decide)⟩)
  · exact appInitField_cases _ _ _ _ _ (Or.inr ⟨by rw [dictContains_DEFAULTS]; decide,
      shellish_not_contains expand lines _ (by decide)⟩)
  · exact appInitField_cases _ _ _ _ _ (Or.inl rfl)
  · exact appInitField_cases _ _ _ _ _ (Or.inl rfl)

theorem config_precedence_witness :
    (("lang", "LANG") ∈ fieldTable ∧ dictContains [("lang", "en")] "lang" = true) ∧
    appInitField "/h" [("lang", "en")] (loadShellishKvConfig (fun s => s) ["LANG=fr"])
      "lang" "LANG" = dictGet [("lang", "en")] "lang" "" ∧
    appInitField "/h" [] (loadShellishKvConfig (fun s => s) ["LANG=fr"])
      "lang" "LANG" = dictGet (loadShellishKvConfig (fun s => s) ["LANG=fr"]) "LANG" "" ∧
    appInitField "/h" [] (loadShellishKvConfig (fun s => s) [])
      "lang" "LANG" = dictGet (DEFAULTS "/h") "LANG" "" :=
  ⟨⟨by decide, by decide⟩,
   (config_precedence "/h" [("lang", "en")] (fun s => s) ["LANG=fr"] "lang" "LANG"
     (by decide)).1 (by decide),
   (config_precedence "/h" [] (fun s => s) ["LANG=fr"] "lang" "LANG"
     (by decide)).2.1 (by decide) (by decide),
   (config_precedence "/h" [] (fun s => s) [] "lang" "LANG"
     (by decide)).2.2 (by decide) (by decide)⟩
